import Mathlib

/-!
Verification development for the dbg-deepar stock-prediction notebook.

The notebook formats Deutsche Börse stock time series into the input schema of
the managed DeepAR forecasting service, splits data into train/test channels,
submits a training job, deploys an endpoint, queries it, and plots results.

We shallowly embed the notebook's own logic:
* the configuration cell (interval assertion, prediction/context lengths,
  mnemonics, hyperparameters),
* the data-reshaping helpers of deepar_util (the helper module itself is not
  part of the sources, so those definitions are modelled from the spec, as
  marked in their doc comments),
* the JSON wire contract of the prediction endpoint,
* the sequence of managed-service API calls issued by the notebook cells,
* the forecast_date conditional expression of the interactive plot callback,
  embedded with Python's conditional-expression grouping.

Prices and JSON numbers are modelled as rationals; timestamps as integers
(seconds); column names of the wide table as an enumerated Metric type.
-/

/-- Column names of the wide stock table used by the notebook:
target_column is EndPrice, covariate_columns are StartPrice, MinPrice,
MaxPrice. -/
inductive Metric where
  | StartPrice
  | MinPrice
  | MaxPrice
  | EndPrice
deriving DecidableEq, Repr, Inhabited

/-- One row of the wide table for one symbol at one time point: the four
price metrics. -/
structure Quote where
  StartPrice : Rat
  MinPrice : Rat
  MaxPrice : Rat
  EndPrice : Rat
deriving DecidableEq, Repr

/-- Column access on a quote, by metric name. -/
def Quote.get (m : Metric) (q : Quote) : Rat :=
  match m with
  | .StartPrice => q.StartPrice
  | .MinPrice => q.MinPrice
  | .MaxPrice => q.MaxPrice
  | .EndPrice => q.EndPrice

/-- The wide time-indexed stock table loaded from S3 (stock_data_series in the
notebook): a common start index and, per stock symbol, one quote per time
point. -/
structure StockTable where
  start : Nat
  series : List (String × List Quote)
deriving DecidableEq, Repr

/-- A per-series record in the DeepAR input schema: identifier, start
timestamp, target value sequence and parallel covariate sequences. -/
structure SeriesRecord where
  ident : String
  start : Nat
  target : List Rat
  cov : List (List Rat)
deriving DecidableEq, Repr

/-- The stocks chosen in the configuration cell:
mnemonics = ['CON','DAI','PAH3','BMW','VOW3']. -/
def mnemonics : List String := ["CON", "DAI", "PAH3", "BMW", "VOW3"]

/-- The target column chosen in the configuration cell. -/
def target_column : Metric := .EndPrice

/-- The covariate columns chosen in the configuration cell. -/
def covariate_columns : List Metric := [.StartPrice, .MinPrice, .MaxPrice]

/-- The parameters produced by the notebook's configuration cell. -/
structure Config where
  interval : String
  prediction_length : Nat
  context_length : Nat
  mnemonics : List String
  target_column : Metric
  covariate_columns : List Metric
  train_test_split : Rat
  num_test_windows : Nat
deriving DecidableEq, Repr, Inhabited

/-- The notebook's configuration cell: asserts that interval is 'D' or 'H'
(returning none models the assertion failure), then sets prediction_length
and context_length to 91 for 'D' and to 2184 for 'H', and fixes the stock
list, column choices, split ratio 0.8 and 4 test windows. -/
def configure (interval : String) : Option Config :=
  if interval = "D" ∨ interval = "H" then
    if interval = "D" then
      some { interval := interval, prediction_length := 91, context_length := 91,
             mnemonics := mnemonics, target_column := target_column,
             covariate_columns := covariate_columns,
             train_test_split := 4 / 5, num_test_windows := 4 }
    else
      some { interval := interval, prediction_length := 2184, context_length := 2184,
             mnemonics := mnemonics, target_column := target_column,
             covariate_columns := covariate_columns,
             train_test_split := 4 / 5, num_test_windows := 4 }
  else
    none

/-- The hyperparameters dictionary built in the configuration cell, as a list
of string key/value pairs; prediction_length and context_length are
stringified from the configured values. -/
def hyperparameters (c : Config) : List (String × String) :=
  [("prediction_length", toString c.prediction_length),
   ("context_length", toString c.context_length),
   ("time_freq", c.interval),
   ("epochs", "200"),
   ("early_stopping_patience", "40"),
   ("num_layers", "2"),
   ("num_cells", "40"),
   ("mini_batch_size", "128"),
   ("learning_rate", "1e-3"),
   ("dropout_rate", "0.1"),
   ("likelihood", "gaussian")]

/-- Lookup of a key in an association list of string keys. -/
def lookupKey (k : String) : List (String × α) → Option α
  | [] => none
  | (k', v) :: rest => if k' = k then some v else lookupKey k rest

/-- Modelled from the spec: deepar_util.py is not among the sources; its
helper that builds one DeepAR record for one stock is modelled from "an
identifier (stock symbol), a start timestamp, a target value sequence
(closing prices), and zero or more parallel covariate sequences (open/min/max
prices) aligned index-for-index with the target". -/
def seriesToRecord (tc : Metric) (cc : List Metric) (start : Nat) (sym : String)
    (qs : List Quote) : SeriesRecord :=
  { ident := sym, start := start,
    target := qs.map (Quote.get tc),
    cov := cc.map (fun c => qs.map (Quote.get c)) }

/-- Modelled from the spec: the deeparize helper of deepar_util.py, "a
data-reshaping helper that converts a wide time-indexed table into a list of
per-entity sequence records with optional covariate arrays". -/
def deeparize (tc : Metric) (cc : List Metric) (t : StockTable) : List SeriesRecord :=
  t.series.map (fun p => seriesToRecord tc cc t.start p.1 p.2)

/-- Minimal JSON values: numbers are rationals. -/
inductive Json where
  | num (q : Rat)
  | str (s : String)
  | arr (items : List Json)
  | obj (fields : List (String × Json))

/-- Field lookup in a JSON object. -/
def Json.getField (k : String) : Json → Option Json
  | .obj fs => lookupKey k fs
  | _ => none

/-- The keys of a JSON object, in order. -/
def Json.keys : Json → List String
  | .obj fs => fs.map Prod.fst
  | _ => []

/-- Read a JSON number. -/
def Json.asNum : Json → Option Rat
  | .num q => some q
  | _ => none

/-- Read a JSON string. -/
def Json.asStr : Json → Option String
  | .str s => some s
  | _ => none

/-- Read a JSON array. -/
def Json.asArr : Json → Option (List Json)
  | .arr items => some items
  | _ => none

/-- Map a fallible function over a list, failing when any element fails. -/
def mapOption (f : α → Option β) : List α → Option (List β)
  | [] => some []
  | a :: l =>
      match f a with
      | some b => (mapOption f l).map (fun bs => b :: bs)
      | none => none

/-- Read a JSON array of numbers. -/
def Json.asNumList (j : Json) : Option (List Rat) :=
  j.asArr.bind (mapOption Json.asNum)

/-- Read a JSON array of arrays of numbers. -/
def Json.asNumLists (j : Json) : Option (List (List Rat)) :=
  j.asArr.bind (mapOption Json.asNumList)

/-- Read a JSON number that is a natural number. -/
def Json.asNat (j : Json) : Option Nat :=
  j.asNum.bind (fun q => if q.den = 1 ∧ 0 ≤ q.num then some q.num.toNat else none)

/-- Modelled from the spec: the per-series JSON encoding written to the
train/test channels by write_dicts_to_file of deepar_util.py (not among the
sources): identifier, start timestamp, target sequence and the covariate
sequences as dynamic features. -/
def recordToJson (r : SeriesRecord) : Json :=
  .obj [("id", .str r.ident),
        ("start", .num r.start),
        ("target", .arr (r.target.map .num)),
        ("dynamic_feat", .arr (r.cov.map (fun f => .arr (f.map .num))))]

/-- Modelled from the spec: reading one per-series JSON record back. -/
def recordOfJson (j : Json) : Option SeriesRecord := do
  let ident ← (j.getField "id").bind Json.asStr
  let start ← (j.getField "start").bind Json.asNat
  let target ← (j.getField "target").bind Json.asNumList
  let cov ← (j.getField "dynamic_feat").bind Json.asNumLists
  pure { ident := ident, start := start, target := target, cov := cov }

/-- Zip four parallel value lists back into quote rows. -/
def zipQuotes : List Rat → List Rat → List Rat → List Rat → List Quote
  | s :: ss, m :: ms, x :: xs, e :: es =>
      { StartPrice := s, MinPrice := m, MaxPrice := x, EndPrice := e }
        :: zipQuotes ss ms xs es
  | _, _, _, _ => []

/-- Rebuild one symbol's quote list from a per-series record whose covariates
are the start/min/max prices and whose target is the closing price. -/
def recordToSeries (r : SeriesRecord) : String × List Quote :=
  (r.ident,
   match r.cov with
   | [ss, ms, xs] => zipQuotes ss ms xs r.target
   | _ => [])

/-- Rebuild the wide table from per-series records. -/
def recordsToTable (rs : List SeriesRecord) : StockTable :=
  { start := ((rs.head?).map SeriesRecord.start).getD 0,
    series := rs.map recordToSeries }

/-- The loaded wide table converted to the per-series JSON records written to
the train/test channels (full series, all columns). -/
def tableToJsonRecords (t : StockTable) : List Json :=
  (deeparize target_column covariate_columns t).map recordToJson

/-- The per-series JSON records converted back into a wide table. -/
def tableOfJsonRecords (js : List Json) : StockTable :=
  recordsToTable (js.filterMap recordOfJson)

/-- Floor of a nonnegative rational as a natural number. -/
def ratFloorNat (q : Rat) : Nat := (q.num / (q.den : Int)).toNat

/-- Number of time points of a series kept for the training channel, from the
train/test split ratio. -/
def trainLength (split : Rat) (n : Nat) : Nat := ratFloorNat (split * n)

/-- Modelled from the spec: one rolling test window produced by
generate_train_test_set of deepar_util.py (not among the sources): a slice of
the original series of fixed prediction length p, starting right after the
training cut tl shifted by k whole horizons, so that successive windows end
at progressively later time points. -/
def testWindow (tc : Metric) (cc : List Metric) (start0 tl p k : Nat)
    (sym : String) (qs : List Quote) : SeriesRecord :=
  seriesToRecord tc cc (start0 + tl + k * p) sym ((qs.drop (tl + k * p)).take p)

/-- Modelled from the spec: generate_train_test_set of deepar_util.py (not
among the sources), from "the same series truncated at different horizon
boundaries; test windows are rolling slices of fixed prediction length ending
at progressively later points". Returns the train records (each series cut at
the split ratio), the test records (numWindows rolling slices per series),
and the start/end time of the training window. -/
def generate_train_test_set (tc : Metric) (cc : List Metric) (t : StockTable)
    (split : Rat) (numWindows p : Nat) :
    List SeriesRecord × List SeriesRecord × Nat × Nat :=
  let train := t.series.map (fun pr =>
    seriesToRecord tc cc t.start pr.1 (pr.2.take (trainLength split pr.2.length)))
  let test := t.series.flatMap (fun pr =>
    (List.range numWindows).map (fun k =>
      testWindow tc cc t.start (trainLength split pr.2.length) p k pr.1 pr.2))
  let n0 := ((t.series.head?).map (fun pr => pr.2.length)).getD 0
  (train, test, t.start, t.start + trainLength split n0)

/-- The test records of a given symbol, in order. -/
def testRecordsFor (sym : String) (test : List SeriesRecord) : List SeriesRecord :=
  test.filter (fun r => r.ident = sym)

/-- Modelled from the spec: query_for_stock of deepar_util.py (not among the
sources) extracts, for one chosen stock, the target series to forecast from
(the observed closing prices less the final forecast horizon), the dynamic
feature arrays (the full covariate series, covering the forecast horizon),
and the observed target series. -/
def query_for_stock (sym : String) (tc : Metric) (cc : List Metric)
    (t : StockTable) (p : Nat) : List Rat × List (List Rat) × List Rat :=
  match lookupKey sym t.series with
  | some qs =>
      let observed := qs.map (Quote.get tc)
      (observed.take (observed.length - p),
       cc.map (fun c => qs.map (Quote.get c)),
       observed)
  | none => ([], [], [])

/-- Modelled from the spec: the request serialization of
DeepARPredictor.predict in deepar_util.py (not among the sources): "JSON with
a series of historical target values, optional dynamic-feature arrays
covering the full forecast horizon, and a list of requested quantiles"; the
dynamic_feat field is omitted when no dynamic features are supplied. -/
def encodeRequest (ts : List Rat) (dyn : Option (List (List Rat)))
    (quantiles : List Rat) : Json :=
  .obj (("target", .arr (ts.map .num)) ::
        ((match dyn with
          | some d => [("dynamic_feat", Json.arr (d.map (fun f => .arr (f.map .num))))]
          | none => []) ++
         [("quantiles", .arr (quantiles.map .num))]))

/-- Decoding of a serialized request, recovering target values, optional
dynamic features and quantiles. -/
def decodeRequest (j : Json) : Option (List Rat × Option (List (List Rat)) × List Rat) := do
  let ts ← (j.getField "target").bind Json.asNumList
  let qs ← (j.getField "quantiles").bind Json.asNumList
  match j.getField "dynamic_feat" with
  | none => pure (ts, none, qs)
  | some d => do
      let dd ← d.asNumLists
      pure (ts, some dd, qs)

/-- Modelled from the spec: the response of the managed endpoint, "JSON
mapping each requested quantile to a forecasted value sequence of length
equal to the configured prediction horizon". The forecasted values themselves
come from the remote model, abstracted by f (value for a quantile at a
forecast step). -/
def encodeResponse (quantiles : List Rat) (p : Nat) (f : Rat → Nat → Rat) : Json :=
  .arr (quantiles.map (fun q =>
    .arr [.num q, .arr ((List.range p).map (fun t => .num (f q t)))]))

/-- Modelled from the spec: the remote inference endpoint as a black box
honouring the vendor wire contract: it reads the requested quantiles from the
request and answers with one forecast sequence of the configured prediction
horizon per requested quantile. -/
def endpointRespond (p : Nat) (f : Rat → Nat → Rat) (req : Json) : Json :=
  match decodeRequest req with
  | some (_, _, qs) => encodeResponse qs p f
  | none => .arr []

/-- Deserialization of one quantile entry of the forecast response. -/
def decodeQuantileEntry : Json → Option (Rat × List Rat)
  | .arr [.num q, vs] => (vs.asNumList).map (fun l => (q, l))
  | _ => none

/-- Deserialization of the quantile forecast response into a mapping from
quantile to forecasted value sequence. -/
def decodeResponse (j : Json) : List (Rat × List Rat) :=
  (j.asArr.getD []).filterMap decodeQuantileEntry

/-- Modelled from the spec: DeepARPredictor.predict of deepar_util.py (not
among the sources), "a thin subclass of a generic prediction client that
serializes a query to JSON and deserializes a quantile forecast response". -/
def DeepARPredictor.predict (p : Nat) (f : Rat → Nat → Rat) (ts : List Rat)
    (dyn : Option (List (List Rat))) (quantiles : List Rat) :
    List (Rat × List Rat) :=
  decodeResponse (endpointRespond p f (encodeRequest ts dyn quantiles))

/-- The managed-service API calls the notebook issues. -/
inductive ApiCall where
  | estimatorConstruct
  | fit
  | deploy
  | predictorConstruct
  | predict
  | deleteEndpoint
deriving DecidableEq, Repr

/-- The sequence of managed-service API calls issued by the notebook cells in
execution order: estimator construction and fit (model training cell), deploy
(model deployment cell), predictor re-construction from the job name, predict
(forecasting cell; the interactive plot triggers further predictions before
teardown), and delete_endpoint (final cell). -/
def notebookApiTrace : List ApiCall :=
  [.estimatorConstruct, .fit, .deploy, .predictorConstruct, .predict, .deleteEndpoint]

/-- The value passed as forecast_date to util.plot: either a timestamp, a
bare time offset, or the bare integer zero. Timestamps and offsets are in
seconds. -/
inductive ForecastDateArg where
  | timestamp (t : Int)
  | delta (seconds : Int)
  | intLit (n : Int)
deriving DecidableEq, Repr

/-- The forecast_date argument built inside the interactive callback
plot_interact, embedded with Python's conditional-expression grouping: the
conditional binds looser than +, so end_training is added only in the branch
for interval 'D'; every other branch yields the bare offset (hours for 'H',
weeks for 'W', 30-day months for 'M') and the integer 0 otherwise. A day is
86400 seconds, an hour 3600, a week 604800. -/
def plot_interact_forecast_date (interval : String) (end_training : Int)
    (forecast_horizon : Nat) : ForecastDateArg :=
  if interval = "D" then .timestamp (end_training + 86400 * forecast_horizon)
  else if interval = "H" then .delta (3600 * forecast_horizon)
  else if interval = "W" then .delta (604800 * forecast_horizon)
  else if interval = "M" then .delta (86400 * (forecast_horizon * 30))
  else .intLit 0

/-- An ipywidgets integer slider: minimum, maximum and initial value. -/
structure IntSliderW where
  lo : Int
  hi : Int
  value : Int
deriving DecidableEq, Repr

/-- The values an ipywidgets IntSlider can take: the widget clamps its value
to the closed interval between its minimum and maximum. -/
def IntSliderW.admits (s : IntSliderW) (v : Int) : Prop := s.lo ≤ v ∧ v ≤ s.hi

/-- The stock_id slider of the interactive plot cell:
IntSlider(min=0, max=len(mnemonics)-1, value=0). -/
def stock_id_slider : IntSliderW :=
  { lo := 0, hi := (mnemonics.length : Int) - 1, value := 0 }

/-- The notebook's locally computed pipeline, run end to end for a given
interval and input table: configuration (the only fallible step, via its
assertion), train/test generation, query extraction for one stock and one
prediction round trip. Everything after the configuration cell is total. -/
def runNotebookPipeline (interval : String) (t : StockTable)
    (f : Rat → Nat → Rat) :
    Option (List SeriesRecord × List SeriesRecord × List (Rat × List Rat)) := do
  let cfg ← configure interval
  let gtts :=
    generate_train_test_set cfg.target_column cfg.covariate_columns t
      cfg.train_test_split cfg.num_test_windows cfg.prediction_length
  let q :=
    query_for_stock "BMW" cfg.target_column cfg.covariate_columns t
      cfg.prediction_length
  let prediction :=
    DeepARPredictor.predict cfg.prediction_length f q.1 (some q.2.1)
      [1 / 10, 1 / 2, 9 / 10]
  pure (gtts.1, gtts.2.1, prediction)

/-- A small concrete quote row for witnesses. -/
def sampleQuote (s m x e : Rat) : Quote :=
  { StartPrice := s, MinPrice := m, MaxPrice := x, EndPrice := e }

/-- Concrete quote rows for witnesses: four time points. -/
def sampleQuotes : List Quote :=
  [sampleQuote 1 0 2 1, sampleQuote 2 1 3 2,
   sampleQuote 3 2 4 3, sampleQuote 4 3 5 4]

/-- A small concrete wide table for witnesses: one symbol, four time points. -/
def sampleTable : StockTable :=
  { start := 100, series := [("BMW", sampleQuotes)] }

/-- The record the reshaping helper builds from the sample table. -/
def sampleRecord : SeriesRecord :=
  seriesToRecord target_column covariate_columns 100 "BMW" sampleQuotes

/-- The first covariate sequence (StartPrice) of the sample record. -/
def sampleCov : List Rat := [1, 2, 3, 4]

/-- A five-point quote list for the train/test split witness. -/
def c4Quotes : List Quote :=
  [sampleQuote 1 1 1 1, sampleQuote 2 2 2 2, sampleQuote 3 3 3 3,
   sampleQuote 4 4 4 4, sampleQuote 5 5 5 5]

/-- A one-symbol table with five time points for the train/test split
witness. -/
def c4Table : StockTable := { start := 0, series := [("BMW", c4Quotes)] }

/-- C1: the only locally implemented error handling is the assertion on the
interval configuration parameter: the configuration step fails exactly when
interval is neither 'D' nor 'H', and for 'D' or 'H' no other step of the
notebook's own pipeline can fail (the pipeline result is missing exactly when
the configuration assertion fires). -/
theorem interval_assert_only_local_error (i : String) (t : StockTable)
    (f : Rat → Nat → Rat) :
    ((configure i).isNone ↔ (i ≠ "D" ∧ i ≠ "H")) ∧
    ((runNotebookPipeline i t f).isNone ↔ (configure i).isNone) := by
  constructor
  · unfold configure
    split
    · rename_i h
      rcases h with h | h <;> subst h <;> simp
    · rename_i h
      push_neg at h
      simp [h]
  · unfold runNotebookPipeline
    cases hc : configure i <;> simp [hc]

/-- C1 witness: at interval 'X' the configuration fails, at 'D' the whole
pipeline succeeds. -/
theorem interval_assert_only_local_error_witness :
    ((configure "X").isNone ↔ ("X" ≠ "D" ∧ "X" ≠ "H")) ∧
    ((runNotebookPipeline "D" sampleTable (fun _ _ => 0)).isNone ↔
      (configure "D").isNone) :=
  ⟨(interval_assert_only_local_error "X" sampleTable (fun _ _ => 0)).1,
   (interval_assert_only_local_error "D" sampleTable (fun _ _ => 0)).2⟩

/-- C9: whenever the configuration cell runs without error, prediction_length
equals context_length (91 for interval 'D', 2184 for 'H'), and the equality
carries over to the later uses of the two parameters, in particular to the
stringified hyperparameters dictionary. -/
theorem prediction_context_length_eq (i : String) (c : Config)
    (h : configure i = some c) :
    c.prediction_length = c.context_length ∧
    (i = "D" → c.prediction_length = 91 ∧ c.context_length = 91) ∧
    (i = "H" → c.prediction_length = 2184 ∧ c.context_length = 2184) ∧
    lookupKey "prediction_length" (hyperparameters c) =
      lookupKey "context_length" (hyperparameters c) := by
  unfold configure at h
  split at h
  · rename_i hdh
    split at h
    · rename_i hd
      cases h
      subst hd
      refine ⟨rfl, fun _ => ⟨rfl, rfl⟩, nofun, ?_⟩
      decide
    · rename_i hd
      have hh : i = "H" := by
        rcases hdh with h1 | h1
        · exact absurd h1 hd
        · exact h1
      cases h
      subst hh
      refine ⟨rfl, nofun, fun _ => ⟨rfl, rfl⟩, ?_⟩
      decide
  · exact absurd h (by simp)

/-- C9 witness: the configuration for interval 'D' satisfies the equalities. -/
theorem prediction_context_length_eq_witness :
    ((configure "D").getD default).prediction_length =
        ((configure "D").getD default).context_length ∧
      ("D" = "D" →
        ((configure "D").getD default).prediction_length = 91 ∧
          ((configure "D").getD default).context_length = 91) ∧
      ("D" = "H" →
        ((configure "D").getD default).prediction_length = 2184 ∧
          ((configure "D").getD default).context_length = 2184) ∧
      lookupKey "prediction_length" (hyperparameters ((configure "D").getD default)) =
        lookupKey "context_length" (hyperparameters ((configure "D").getD default)) :=
  prediction_context_length_eq "D" ((configure "D").getD default) rfl

/-- C7: the notebook issues the managed-service calls in the order estimator
construction, fit, deploy, predict, delete_endpoint; each of the five occurs
in the trace, and the endpoint teardown is the unique last operation. -/
theorem api_calls_ordered :
    notebookApiTrace.indexOf .estimatorConstruct < notebookApiTrace.indexOf .fit ∧
    notebookApiTrace.indexOf .fit < notebookApiTrace.indexOf .deploy ∧
    notebookApiTrace.indexOf .deploy < notebookApiTrace.indexOf .predict ∧
    notebookApiTrace.indexOf .predict < notebookApiTrace.indexOf .deleteEndpoint ∧
    ApiCall.estimatorConstruct ∈ notebookApiTrace ∧
    ApiCall.fit ∈ notebookApiTrace ∧
    ApiCall.deploy ∈ notebookApiTrace ∧
    ApiCall.predict ∈ notebookApiTrace ∧
    ApiCall.deleteEndpoint ∈ notebookApiTrace ∧
    notebookApiTrace.getLast? = some .deleteEndpoint ∧
    notebookApiTrace.count .deleteEndpoint = 1 := by
  decide

/-- C8: in plot_interact, the forecast_date argument equals end_training plus
a day offset exactly for interval 'D'; for any other interval the argument
never depends on end_training and is the bare offset (hours for 'H', weeks
for 'W', 30-day months for 'M', and the integer 0 otherwise). -/
theorem plot_interact_forecast_date_grouping (i : String) (e e' : Int) (h : Nat) :
    plot_interact_forecast_date "D" e h = .timestamp (e + 86400 * h) ∧
    (i ≠ "D" →
      plot_interact_forecast_date i e h = plot_interact_forecast_date i e' h) ∧
    plot_interact_forecast_date "H" e h = .delta (3600 * h) ∧
    plot_interact_forecast_date "W" e h = .delta (604800 * h) ∧
    plot_interact_forecast_date "M" e h = .delta (86400 * (h * 30)) ∧
    (i ≠ "D" → i ≠ "H" → i ≠ "W" → i ≠ "M" →
      plot_interact_forecast_date i e h = .intLit 0) := by
  refine ⟨by simp [plot_interact_forecast_date], ?_,
          by simp [plot_interact_forecast_date],
          by simp [plot_interact_forecast_date],
          by simp [plot_interact_forecast_date], ?_⟩
  · intro hne
    simp [plot_interact_forecast_date, hne]
  · intro h1 h2 h3 h4
    simp [plot_interact_forecast_date, h1, h2, h3, h4]

/-- C8 witness: concrete instances, at interval 'X' with two different
end_training values. -/
theorem plot_interact_forecast_date_grouping_witness :
    plot_interact_forecast_date "D" 5 2 = .timestamp (5 + 86400 * 2) ∧
    plot_interact_forecast_date "X" 5 2 = plot_interact_forecast_date "X" 7 2 ∧
    plot_interact_forecast_date "H" 5 2 = .delta (3600 * 2) ∧
    plot_interact_forecast_date "W" 5 2 = .delta (604800 * 2) ∧
    plot_interact_forecast_date "M" 5 2 = .delta (86400 * (2 * 30)) ∧
    plot_interact_forecast_date "X" 5 2 = .intLit 0 := by
  have H := plot_interact_forecast_date_grouping "X" 5 7 2
  exact ⟨H.1, H.2.1 (by decide), H.2.2.1, H.2.2.2.1, H.2.2.2.2.1,
         H.2.2.2.2.2 (by decide) (by decide) (by decide) (by decide)⟩

/-- C10: every value the stock_id slider admits lies between 0 and
len(mnemonics) - 1 = 4, so indexing the mnemonics list with it is in
bounds. -/
theorem stock_id_slider_in_bounds (v : Int) (h : stock_id_slider.admits v) :
    0 ≤ v ∧ v.toNat < mnemonics.length ∧ mnemonics.length = 5 ∧
    (mnemonics[v.toNat]?).isSome := by
  obtain ⟨h0, h1⟩ := h
  have hlo : (0 : Int) ≤ v := by
    simpa [stock_id_slider] using h0
  have hhi : v ≤ 4 := by
    have : v ≤ (mnemonics.length : Int) - 1 := h1
    simpa [mnemonics] using this
  have hlt : v.toNat < mnemonics.length := by
    simp only [mnemonics, List.length]
    omega
  exact ⟨hlo, hlt, rfl, by rw [List.getElem?_eq_getElem hlt]; rfl⟩

/-- C10 witness: the slider's topmost value 4 indexes the five mnemonics in
bounds. -/
theorem stock_id_slider_in_bounds_witness :
    0 ≤ (4 : Int) ∧ (4 : Int).toNat < mnemonics.length ∧ mnemonics.length = 5 ∧
    (mnemonics[(4 : Int).toNat]?).isSome :=
  stock_id_slider_in_bounds 4 (by constructor <;> decide)

theorem mapOption_asNum_map (l : List Rat) :
    mapOption Json.asNum (l.map Json.num) = some l := by
  induction l with
  | nil => rfl
  | cons a l ih => simp [mapOption, ih, Json.asNum]

theorem asNumList_encode (l : List Rat) :
    (Json.arr (l.map .num)).asNumList = some l := by
  simp [Json.asNumList, Json.asArr, mapOption_asNum_map]

theorem mapOption_asNumList_map (d : List (List Rat)) :
    mapOption Json.asNumList (d.map (fun f => Json.arr (f.map .num))) = some d := by
  induction d with
  | nil => rfl
  | cons a d ih => simp [mapOption, ih, asNumList_encode]

theorem asNumLists_encode (d : List (List Rat)) :
    (Json.arr (d.map (fun f => Json.arr (f.map .num)))).asNumLists = some d := by
  simp [Json.asNumLists, Json.asArr, mapOption_asNumList_map]

/-- C6: the serialized request of DeepARPredictor.predict carries exactly the
historical target values, the dynamic-feature arrays when supplied (the field
is omitted when they are not), and the requested quantiles: decoding recovers
all three, and the object's keys are exactly the corresponding fields. -/
theorem predict_request_content (ts : List Rat) (d : List (List Rat))
    (qs : List Rat) :
    decodeRequest (encodeRequest ts (some d) qs) = some (ts, some d, qs) ∧
    decodeRequest (encodeRequest ts none qs) = some (ts, none, qs) ∧
    (encodeRequest ts none qs).getField "dynamic_feat" = none ∧
    (encodeRequest ts (some d) qs).getField "dynamic_feat" =
      some (.arr (d.map (fun f => .arr (f.map .num)))) ∧
    (encodeRequest ts (some d) qs).keys = ["target", "dynamic_feat", "quantiles"] ∧
    (encodeRequest ts none qs).keys = ["target", "quantiles"] := by
  refine ⟨?_, ?_, ?_, ?_, ?_, ?_⟩ <;>
    simp [encodeRequest, decodeRequest, Json.getField, Json.keys, lookupKey,
          asNumList_encode, asNumLists_encode]

theorem decodeQuantileEntry_encode (q : Rat) (l : List Rat) :
    decodeQuantileEntry (.arr [.num q, .arr (l.map .num)]) = some (q, l) := by
  simp [decodeQuantileEntry, asNumList_encode]

theorem decodeResponse_encode (qs : List Rat) (p : Nat) (f : Rat → Nat → Rat) :
    decodeResponse (encodeResponse qs p f) =
      qs.map (fun q => (q, (List.range p).map (f q))) := by
  simp only [decodeResponse, encodeResponse, Json.asArr, Option.getD_some]
  induction qs with
  | nil => rfl
  | cons q qs ih =>
      have hmm : List.map (fun t => Json.num (f q t)) (List.range p) =
          (List.map (f q) (List.range p)).map Json.num := by
        rw [List.map_map]; rfl
      simp only [List.map_cons, List.filterMap_cons, hmm,
                 decodeQuantileEntry_encode, ih]

theorem predict_eq (p : Nat) (f : Rat → Nat → Rat) (ts : List Rat)
    (dyn : Option (List (List Rat))) (qs : List Rat) :
    DeepARPredictor.predict p f ts dyn qs =
      qs.map (fun q => (q, (List.range p).map (f q))) := by
  have hreq : decodeRequest (encodeRequest ts dyn qs) = some (ts, dyn, qs) := by
    cases dyn <;>
      simp [encodeRequest, decodeRequest, Json.getField, lookupKey,
            asNumList_encode, asNumLists_encode]
  unfold DeepARPredictor.predict endpointRespond
  rw [hreq, decodeResponse_encode]

/-- C5: the deserialized prediction returned by DeepARPredictor.predict maps
each requested quantile, and only the requested quantiles in their order, to
a forecasted value sequence whose length is the configured prediction
horizon. -/
theorem predict_quantile_shape (p : Nat) (f : Rat → Nat → Rat) (ts : List Rat)
    (dyn : Option (List (List Rat))) (qs : List Rat) (pr : Rat × List Rat)
    (h : pr ∈ DeepARPredictor.predict p f ts dyn qs) :
    (DeepARPredictor.predict p f ts dyn qs).map Prod.fst = qs ∧
    pr.2.length = p := by
  rw [predict_eq] at h ⊢
  constructor
  · simp [List.map_map, Function.comp_def]
  · simp only [List.mem_map] at h
    obtain ⟨q, _, rfl⟩ := h
    simp

/-- C5 witness: a concrete two-step forecast at the single quantile 1/2. -/
theorem predict_quantile_shape_witness :
    (DeepARPredictor.predict 2 (fun _ t => (t : Rat)) [5] none [1 / 2]).map
        Prod.fst = [1 / 2] ∧
    ((1 / 2 : Rat), [(0 : Rat), 1]).2.length = 2 :=
  predict_quantile_shape 2 (fun _ t => (t : Rat)) [5] none [1 / 2]
    ((1 / 2 : Rat), [(0 : Rat), 1]) (by rw [predict_eq]; norm_num [List.range_succ])

/-- C2: in every record built from the table, each covariate sequence is as
long as the target sequence and both read the same row of the same symbol's
quote list at every position; in the query extraction for a stock, every
dynamic-feature array is as long as the observed target series, which extends
the queried target series by the full forecast horizon. -/
theorem covariates_aligned (t : StockTable) (tc : Metric) (cc : List Metric)
    (r : SeriesRecord) (hr : r ∈ deeparize tc cc t) (c : List Rat)
    (hc : c ∈ r.cov) :
    (c.length = r.target.length ∧
     ∃ sym qs m, (sym, qs) ∈ t.series ∧ m ∈ cc ∧
       r.target = qs.map (Quote.get tc) ∧ c = qs.map (Quote.get m) ∧
       ∀ i, i < c.length →
         c.getD i 0 = Quote.get m (qs.getD i (sampleQuote 0 0 0 0)) ∧
         r.target.getD i 0 = Quote.get tc (qs.getD i (sampleQuote 0 0 0 0))) ∧
    ∀ sym p,
      (∀ d ∈ (query_for_stock sym tc cc t p).2.1,
        d.length = (query_for_stock sym tc cc t p).2.2.length) ∧
      (p ≤ (query_for_stock sym tc cc t p).2.2.length →
        (query_for_stock sym tc cc t p).2.2.length =
          (query_for_stock sym tc cc t p).1.length + p) := by
  constructor
  · simp only [deeparize, List.mem_map] at hr
    obtain ⟨pr, hpr, rfl⟩ := hr
    simp only [seriesToRecord, List.mem_map] at hc
    obtain ⟨m, hm, rfl⟩ := hc
    refine ⟨by simp [seriesToRecord], pr.1, pr.2, m, by simpa using hpr, hm,
            rfl, rfl, ?_⟩
    intro i hi
    have hi' : i < pr.2.length := by simpa using hi
    constructor
    · rw [List.getD_eq_getElem _ _ (by simpa using hi), List.getElem_map]
      rw [List.getD_eq_getElem _ _ hi']
    · simp only [seriesToRecord]
      rw [List.getD_eq_getElem _ _ (by simpa using hi), List.getElem_map]
      rw [List.getD_eq_getElem _ _ hi']
  · intro sym p
    unfold query_for_stock
    cases hq : lookupKey sym t.series with
    | none =>
        simp only []
        refine ⟨fun d hd => absurd hd (by simp), fun hp => by simp_all⟩
    | some qs =>
        simp only []
        constructor
        · intro d hd
          simp only [List.mem_map] at hd
          obtain ⟨m, hm, rfl⟩ := hd
          simp
        · intro hp
          simp only [List.length_take, List.length_map] at *
          omega

/-- C2 witness: the sample table's record and its StartPrice covariate. -/
theorem covariates_aligned_witness :
    (sampleCov.length = sampleRecord.target.length ∧
     ∃ sym qs m, (sym, qs) ∈ sampleTable.series ∧ m ∈ covariate_columns ∧
       sampleRecord.target = qs.map (Quote.get target_column) ∧
       sampleCov = qs.map (Quote.get m) ∧
       ∀ i, i < sampleCov.length →
         sampleCov.getD i 0 = Quote.get m (qs.getD i (sampleQuote 0 0 0 0)) ∧
         sampleRecord.target.getD i 0 =
           Quote.get target_column (qs.getD i (sampleQuote 0 0 0 0))) ∧
    ∀ sym p,
      (∀ d ∈ (query_for_stock sym target_column covariate_columns sampleTable p).2.1,
        d.length =
          (query_for_stock sym target_column covariate_columns sampleTable p).2.2.length) ∧
      (p ≤ (query_for_stock sym target_column covariate_columns sampleTable p).2.2.length →
        (query_for_stock sym target_column covariate_columns sampleTable p).2.2.length =
          (query_for_stock sym target_column covariate_columns sampleTable p).1.length + p) :=
  covariates_aligned sampleTable target_column covariate_columns sampleRecord
    (by decide) sampleCov (by decide)

theorem zipQuotes_maps (qs : List Quote) :
    zipQuotes (qs.map (Quote.get .StartPrice)) (qs.map (Quote.get .MinPrice))
      (qs.map (Quote.get .MaxPrice)) (qs.map (Quote.get .EndPrice)) = qs := by
  induction qs with
  | nil => rfl
  | cons q qs ih => simp [zipQuotes, Quote.get, ih]

theorem recordOfJson_recordToJson (r : SeriesRecord) :
    recordOfJson (recordToJson r) = some r := by
  simp [recordToJson, recordOfJson, Json.getField, lookupKey, Json.asStr,
        Json.asNat, Json.asNum, asNumList_encode, asNumLists_encode,
        Rat.den_natCast, Rat.num_natCast]

theorem recordToSeries_seriesToRecord (s : Nat) (sym : String) (qs : List Quote) :
    recordToSeries (seriesToRecord target_column covariate_columns s sym qs) =
      (sym, qs) := by
  simp only [recordToSeries, seriesToRecord, target_column, covariate_columns,
             List.map_cons, List.map_nil]
  exact congrArg _ (zipQuotes_maps qs)

/-- C3: converting the loaded wide table into the per-series JSON records of
the train/test channels and back preserves every included series (all target
and covariate values of every symbol), and the whole table including the
start index whenever the table has at least one series. -/
theorem table_roundtrip (t : StockTable) :
    (tableOfJsonRecords (tableToJsonRecords t)).series = t.series ∧
    (t.series ≠ [] → tableOfJsonRecords (tableToJsonRecords t) = t) := by
  have hrec : (tableToJsonRecords t).filterMap recordOfJson =
      deeparize target_column covariate_columns t := by
    unfold tableToJsonRecords
    rw [List.filterMap_map]
    have : (recordOfJson ∘ recordToJson) = fun r => some r := by
      funext r
      exact recordOfJson_recordToJson r
    rw [this]
    induction deeparize target_column covariate_columns t with
    | nil => rfl
    | cons a l ih => simp [List.filterMap_cons, ih]
  have hser : (tableOfJsonRecords (tableToJsonRecords t)).series = t.series := by
    unfold tableOfJsonRecords recordsToTable
    rw [hrec]
    unfold deeparize
    rw [List.map_map]
    have : (recordToSeries ∘ fun p : String × List Quote => seriesToRecord
        target_column covariate_columns t.start p.1 p.2) =
          fun p : String × List Quote => (p.1, p.2) := by
      funext p
      exact recordToSeries_seriesToRecord t.start p.1 p.2
    rw [this]
    simp
  refine ⟨hser, fun hne => ?_⟩
  have hstart : (tableOfJsonRecords (tableToJsonRecords t)).start = t.start := by
    unfold tableOfJsonRecords recordsToTable
    rw [hrec]
    unfold deeparize
    cases hts : t.series with
    | nil => exact absurd hts hne
    | cons a l => simp [seriesToRecord]
  cases htab : tableOfJsonRecords (tableToJsonRecords t) with
  | mk s ser =>
      cases t with
      | mk s' ser' =>
          rw [htab] at hstart hser
          simp_all

/-- C3 witness: the sample table round-trips exactly. -/
theorem table_roundtrip_witness :
    (tableOfJsonRecords (tableToJsonRecords sampleTable)).series =
        sampleTable.series ∧
      tableOfJsonRecords (tableToJsonRecords sampleTable) = sampleTable :=
  ⟨(table_roundtrip sampleTable).1, (table_roundtrip sampleTable).2 (by decide)⟩

theorem testWindow_ident (tc : Metric) (cc : List Metric) (start0 tl p k : Nat)
    (sym : String) (qs : List Quote) :
    (testWindow tc cc start0 tl p k sym qs).ident = sym := rfl

theorem testRecordsFor_flatMap (tc : Metric) (cc : List Metric) (start0 : Nat)
    (split : Rat) (w p : Nat) (sym : String) (qs : List Quote)
    (l : List (String × List Quote)) (hs : (sym, qs) ∈ l)
    (hnd : (l.map Prod.fst).Nodup) :
    testRecordsFor sym
      (l.flatMap (fun pr => (List.range w).map (fun k =>
        testWindow tc cc start0 (trainLength split pr.2.length) p k pr.1 pr.2))) =
    (List.range w).map (fun k =>
      testWindow tc cc start0 (trainLength split qs.length) p k sym qs) := by
  induction l with
  | nil => cases hs
  | cons a l ih =>
      unfold testRecordsFor at *
      rw [List.flatMap_cons, List.filter_append]
      simp only [List.map_cons, List.nodup_cons] at hnd
      rcases List.mem_cons.mp hs with heq | hmem
      · subst heq
        have h1 : List.filter (fun r => decide (r.ident = sym))
            ((List.range w).map (fun k =>
              testWindow tc cc start0 (trainLength split qs.length) p k sym qs)) =
            (List.range w).map (fun k =>
              testWindow tc cc start0 (trainLength split qs.length) p k sym qs) := by
          apply List.filter_eq_self.mpr
          intro b hb
          simp only [List.mem_map] at hb
          obtain ⟨k, _, rfl⟩ := hb
          simp [testWindow_ident]
        have h2 : List.filter (fun r => decide (r.ident = sym))
            (l.flatMap (fun pr => (List.range w).map (fun k =>
              testWindow tc cc start0 (trainLength split pr.2.length) p k pr.1 pr.2))) =
            [] := by
          apply List.filter_eq_nil_iff.mpr
          intro b hb
          simp only [List.mem_flatMap, List.mem_map] at hb
          obtain ⟨pr, hpr, k, _, rfl⟩ := hb
          simp only [testWindow_ident, decide_eq_true_eq]
          intro hcon
          exact hnd.1 (by simpa [hcon] using List.mem_map_of_mem Prod.fst hpr)
        simpa [h2] using h1
      · have hne : ¬(a.1 = sym) := by
          intro hcon
          exact hnd.1 (by simpa [hcon] using List.mem_map_of_mem Prod.fst hmem)
        have h1 : List.filter (fun r => decide (r.ident = sym))
            ((List.range w).map (fun k =>
              testWindow tc cc start0 (trainLength split a.2.length) p k a.1 a.2)) =
            [] := by
          apply List.filter_eq_nil_iff.mpr
          intro b hb
          simp only [List.mem_map] at hb
          obtain ⟨k, _, rfl⟩ := hb
          simp [testWindow_ident, hne]
        rw [h1, List.nil_append]
        exact ih hmem hnd.2

/-- C4: for every input series, the test data of generate_train_test_set
consists of num_test_windows rolling slices of that series: its test records
are exactly the windows indexed 0 to num_test_windows - 1, there are
num_test_windows of them, and each window has fixed length prediction_length,
starts (and hence ends) at a time point growing linearly with the window
index, and agrees with the original series at every shared index. -/
theorem train_test_windows (tc : Metric) (cc : List Metric) (t : StockTable)
    (split : Rat) (w p : Nat) (sym : String) (qs : List Quote)
    (hs : (sym, qs) ∈ t.series) (hnd : (t.series.map Prod.fst).Nodup)
    (hlen : trainLength split qs.length + w * p ≤ qs.length) :
    testRecordsFor sym (generate_train_test_set tc cc t split w p).2.1 =
      (List.range w).map (fun k =>
        testWindow tc cc t.start (trainLength split qs.length) p k sym qs) ∧
    (testRecordsFor sym (generate_train_test_set tc cc t split w p).2.1).length
      = w ∧
    ∀ k, k < w →
      (testWindow tc cc t.start (trainLength split qs.length) p k sym qs).target.length
          = p ∧
      (testWindow tc cc t.start (trainLength split qs.length) p k sym qs).start =
        t.start + trainLength split qs.length + k * p ∧
      (testWindow tc cc t.start (trainLength split qs.length) p k sym qs).start + p =
        t.start + trainLength split qs.length + (k + 1) * p ∧
      (∀ i, i < p →
        (testWindow tc cc t.start (trainLength split qs.length) p k sym qs).target.getD i 0
          = (qs.map (Quote.get tc)).getD (trainLength split qs.length + k * p + i) 0) ∧
      (0 < p → ∀ k', k < k' → k' < w →
        (testWindow tc cc t.start (trainLength split qs.length) p k sym qs).start + p ≤
          (testWindow tc cc t.start (trainLength split qs.length) p k' sym qs).start) := by
  have hfilter : testRecordsFor sym (generate_train_test_set tc cc t split w p).2.1 =
      (List.range w).map (fun k =>
        testWindow tc cc t.start (trainLength split qs.length) p k sym qs) := by
    have hgen : (generate_train_test_set tc cc t split w p).2.1 =
        t.series.flatMap (fun pr => (List.range w).map (fun k =>
          testWindow tc cc t.start (trainLength split pr.2.length) p k pr.1 pr.2)) := by
      simp [generate_train_test_set]
    rw [hgen]
    exact testRecordsFor_flatMap tc cc t.start split w p sym qs t.series hs hnd
  refine ⟨hfilter, by rw [hfilter]; simp, ?_⟩
  intro k hk
  have hkp : k * p + p ≤ w * p := by
    have h1 : k + 1 ≤ w := hk
    have := Nat.mul_le_mul_right p h1
    simpa [Nat.succ_mul] using this
  have hwin : (testWindow tc cc t.start (trainLength split qs.length) p k sym
      qs).target.length = p := by
    simp only [testWindow, seriesToRecord, List.length_map, List.length_take,
               List.length_drop]
    omega
  refine ⟨hwin, rfl, by simp [testWindow, seriesToRecord, Nat.succ_mul]; omega,
          ?_, ?_⟩
  · intro i hi
    have hib : i < (testWindow tc cc t.start (trainLength split qs.length) p k sym
        qs).target.length := by omega
    have hqb : trainLength split qs.length + k * p + i < qs.length := by omega
    rw [List.getD_eq_getElem _ _ hib,
        List.getD_eq_getElem _ _ (by simpa using hqb)]
    simp only [testWindow, seriesToRecord, List.getElem_map, List.getElem_take,
               List.getElem_drop]
  · intro _ k' hkk' _
    have hmul : (k + 1) * p ≤ k' * p := Nat.mul_le_mul_right p hkk'
    simp only [testWindow, seriesToRecord]
    rw [Nat.succ_mul] at hmul
    omega

/-- C4 witness: four unit-length rolling test windows over a five-point
series split at ratio 1/5. -/
theorem train_test_windows_witness :
    testRecordsFor "BMW"
        (generate_train_test_set target_column covariate_columns c4Table
          (1 / 5) 4 1).2.1 =
      (List.range 4).map (fun k =>
        testWindow target_column covariate_columns c4Table.start
          (trainLength (1 / 5) c4Quotes.length) 1 k "BMW" c4Quotes) ∧
    (testRecordsFor "BMW"
        (generate_train_test_set target_column covariate_columns c4Table
          (1 / 5) 4 1).2.1).length = 4 ∧
    ∀ k, k < 4 →
      (testWindow target_column covariate_columns c4Table.start
          (trainLength (1 / 5) c4Quotes.length) 1 k "BMW" c4Quotes).target.length
          = 1 ∧
      (testWindow target_column covariate_columns c4Table.start
          (trainLength (1 / 5) c4Quotes.length) 1 k "BMW" c4Quotes).start =
        c4Table.start + trainLength (1 / 5) c4Quotes.length + k * 1 ∧
      (testWindow target_column covariate_columns c4Table.start
          (trainLength (1 / 5) c4Quotes.length) 1 k "BMW" c4Quotes).start + 1 =
        c4Table.start + trainLength (1 / 5) c4Quotes.length + (k + 1) * 1 ∧
      (∀ i, i < 1 →
        (testWindow target_column covariate_columns c4Table.start
            (trainLength (1 / 5) c4Quotes.length) 1 k "BMW" c4Quotes).target.getD i 0
          = (c4Quotes.map (Quote.get target_column)).getD
              (trainLength (1 / 5) c4Quotes.length + k * 1 + i) 0) ∧
      (0 < 1 → ∀ k', k < k' → k' < 4 →
        (testWindow target_column covariate_columns c4Table.start
            (trainLength (1 / 5) c4Quotes.length) 1 k "BMW" c4Quotes).start + 1 ≤
          (testWindow target_column covariate_columns c4Table.start
            (trainLength (1 / 5) c4Quotes.length) 1 k' "BMW" c4Quotes).start) :=
  train_test_windows target_column covariate_columns c4Table (1 / 5) 4 1 "BMW"
    c4Quotes (by simp [c4Table]) (by simp [c4Table])
    (by norm_num [trainLength, ratFloorNat, c4Quotes])
